import Mathlib

/-!
Verification of the deterministic mock heritage-analysis pipeline
(`server/routes/analyze.ts`).

Strings are modelled as lists of characters (`Str`); JavaScript string
primitives (`startsWith`, `includes`, `toLowerCase`, `substring`) are
modelled by the corresponding list operations.  JavaScript numbers are
modelled by `Nat`/`Int` where the source only ever holds integers (all
intermediate float arithmetic in the source is exact in those ranges),
and by `ℚ` where `Math.random()` draws are involved.
-/

abbrev Str := List Char

/-- JS `s.toLowerCase()` (ASCII-faithful model). -/
def toLowerStr (s : Str) : Str := s.map Char.toLower

/-- JS `s.includes(sub)`: substring containment. -/
def containsSub : Str → Str → Bool
  | [], sub => sub.isEmpty
  | c :: rest, sub => sub.isPrefixOf (c :: rest) || containsSub rest sub

/-- JS `s.substring(a, b)` for `a ≤ b` (indices clamped to the string length). -/
def substringJS (s : Str) (a b : Nat) : Str := (s.drop a).take (b - a)

/-- JS `s || d` on strings: the empty string is falsy. -/
def jsOrStr (s d : Str) : Str := if s = [] then d else s

/-- JS `arr[0] || d`: `undefined` (missing index) and the empty string both fall back. -/
def orD (l : List Str) (d : Str) : Str :=
  match l.head? with
  | none => d
  | some s => if s = [] then d else s

/-- JS `ToInt32`: reduce an integer into the signed 32-bit range,
as performed by `hash & hash` and `<<` in the source. -/
def toInt32 (n : Int) : Int :=
  if n % 4294967296 < 2147483648 then n % 4294967296 else n % 4294967296 - 4294967296

/-- One loop iteration of `simpleHash`:
`hash = (hash << 5) - hash + char; hash = hash & hash`.
`hash << 5` coerces to Int32 (the accumulator already is one), the
subtraction and addition are exact in doubles at these magnitudes, and
`hash & hash` coerces the result back to Int32. -/
def jsHashStep (hash : Int) (char : Nat) : Int :=
  toInt32 (toInt32 (hash * 32) - hash + char)

/-- `simpleHash` (analyze.ts): rolling hash with signed 32-bit wraparound,
then `Math.abs`. -/
def simpleHash (str : Str) : Nat :=
  (str.foldl (fun hash c => jsHashStep hash c.toNat) 0).natAbs

/-- Modelled from the spec's words for comparison (claim C2): iterate
`hash = (hash * 31 + byte) mod 2^32` starting from 0; the absolute value of a
value in `[0, 2^32)` is itself. -/
def simpleHashClaimedMod (str : Str) : Nat :=
  str.foldl (fun hash c => (hash * 31 + c.toNat) % 4294967296) 0

structure ImageValidation where
  valid : Bool
  error : Option Str
deriving DecidableEq

def invalidFormatMsg : Str := "Invalid image format".data

def tooLargeMsg : Str := "Image file too large".data

/-- `validateImage` (analyze.ts).  The source computes
`(imageData.length * 3) / 4 > 5 * 1024 * 1024` in floats; that arithmetic is
exact at these magnitudes, and the comparison is equivalent to the integer
comparison `imageData.length * 3 > 5 * 1024 * 1024 * 4` used here. -/
def validateImage (imageData : Str) : ImageValidation :=
  if "data:image/".data.isPrefixOf imageData = false then
    ⟨false, some invalidFormatMsg⟩
  else if 5 * 1024 * 1024 * 4 < imageData.length * 3 then
    ⟨false, some tooLargeMsg⟩
  else
    ⟨true, none⟩

structure VisualCues where
  architecturalStyle : List Str
  materials : List Str
  structures : List Str
  iconography : List Str
  carvings : List Str
  estimatedPeriod : Str
  estimatedDynasty : List Str
deriving DecidableEq

def styles : List Str :=
  ["Dravidian".data, "Nagara".data, "Indo-Islamic".data, "Hoysala".data,
   "Pallava".data, "Chola".data, "Mughal".data, "Rajput".data]

def materials : List Str :=
  ["Granite".data, "Sandstone".data, "Marble".data, "Soapstone".data,
   "Limestone".data]

def structures : List Str :=
  ["Gopurams".data, "Pillars with lotus capitals".data,
   "Barrel-vaulted roofs".data, "Star-shaped platforms".data,
   "Mandapas".data, "Mukhamandapa".data, "Shikhara".data]

def iconography : List Str :=
  ["Divine deities in relief".data, "Mythological narratives".data,
   "Sacred geometry patterns".data, "Celestial beings".data,
   "Animal motifs".data, "Floral designs".data]

def carvings : List Str :=
  ["High-relief carvings".data, "Intricate stone work".data,
   "Decorative friezes".data, "Narrative panels".data,
   "Geometric patterns".data, "Floral and foliate motifs".data]

def periods : List Str :=
  ["7th-8th Century CE".data, "9th-10th Century CE".data,
   "11th-12th Century CE".data, "13th-14th Century CE".data,
   "15th-16th Century CE".data]

def dynasties : List Str :=
  ["Pallava".data, "Chola".data, "Hoysala".data, "Vijayanagara".data,
   "Mughal".data, "Rajput".data]

/-- `detectArchitecturalStyle` (analyze.ts). -/
def detectArchitecturalStyle (image : Str) : List Str :=
  let imageHash := simpleHash (substringJS image 0 1000)
  let selected := [styles.getD (imageHash % styles.length) []]
  if imageHash % 3 = 0 then
    selected ++ [styles.getD ((imageHash + 1) % styles.length) []]
  else
    selected

/-- `detectMaterials` (analyze.ts). -/
def detectMaterials (image : Str) : List Str :=
  let imageHash := simpleHash (substringJS image 100 1100)
  [materials.getD (imageHash % materials.length) [],
   materials.getD ((imageHash + 1) % materials.length) []]

/-- `detectStructures` (analyze.ts). -/
def detectStructures (image : Str) : List Str :=
  let imageHash := simpleHash (substringJS image 200 1200)
  (List.range 3).map (fun i => structures.getD ((imageHash + i) % structures.length) [])

/-- `detectIconography` (analyze.ts). -/
def detectIconography (image : Str) : List Str :=
  let imageHash := simpleHash (substringJS image 300 1300)
  (List.range 2).map (fun i => iconography.getD ((imageHash + i) % iconography.length) [])

/-- `detectCarvings` (analyze.ts). -/
def detectCarvings (image : Str) : List Str :=
  let imageHash := simpleHash (substringJS image 400 1400)
  (List.range 2).map (fun i => carvings.getD ((imageHash + i) % carvings.length) [])

/-- `estimatePeriod` (analyze.ts). -/
def estimatePeriod (image : Str) : Str :=
  let imageHash := simpleHash (substringJS image 500 1500)
  periods.getD (imageHash % periods.length) []

/-- `estimateDynasty` (analyze.ts). -/
def estimateDynasty (image : Str) : List Str :=
  let imageHash := simpleHash (substringJS image 600 1600)
  (List.range 2).map (fun i => dynasties.getD ((imageHash + i) % dynasties.length) [])

/-- The seven substring windows hashed by the seven cue extractors, in
extractor order (style, materials, structures, iconography, carvings,
period, dynasty). -/
def cueWindows : List (Nat × Nat) :=
  [(0, 1000), (100, 1100), (200, 1200), (300, 1300), (400, 1400),
   (500, 1500), (600, 1600)]

/-- Two half-open index ranges are non-overlapping (disjoint). -/
def nonOverlapping (w1 w2 : Nat × Nat) : Prop :=
  w1.2 ≤ w2.1 ∨ w2.2 ≤ w1.1

instance (w1 w2 : Nat × Nat) : Decidable (nonOverlapping w1 w2) :=
  inferInstanceAs (Decidable (_ ∨ _))

structure VisualAnalysisResult where
  summary : Str
  cues : VisualCues

/-- JS `arr.join(", ")` resp. `arr.join(s)`. -/
def joinSep (sep : Str) (l : List Str) : Str := List.intercalate sep l

/-- `performVisualAnalysis` (analyze.ts).  `text` is the raw request field,
which may be `undefined` (`none`); the summary template interpolates
`text || "No additional context provided"`. -/
def performVisualAnalysis (image : Str) (text : Option Str) : VisualAnalysisResult :=
  let cues : VisualCues :=
    { architecturalStyle := detectArchitecturalStyle image
      materials := detectMaterials image
      structures := detectStructures image
      iconography := detectIconography image
      carvings := detectCarvings image
      estimatedPeriod := estimatePeriod image
      estimatedDynasty := estimateDynasty image }
  let summary : Str :=
    "VISUAL CUE EXTRACTION:\n  \nArchitectural Style: ".data
      ++ jsOrStr (joinSep ", ".data cues.architecturalStyle) "Classical/Traditional".data
      ++ "\nMaterials: ".data
      ++ jsOrStr (joinSep ", ".data cues.materials) "Stone and carved elements".data
      ++ "\nStructures: ".data
      ++ jsOrStr (joinSep ", ".data cues.structures) "Pillars, arches, and ornamental features".data
      ++ "\nIconography: ".data
      ++ jsOrStr (joinSep ", ".data cues.iconography) "Religious and mythological symbols".data
      ++ "\nCarvings and Motifs: ".data
      ++ jsOrStr (joinSep ", ".data cues.carvings) "Intricate stone carvings".data
      ++ "\nEstimated Period: ".data ++ cues.estimatedPeriod
      ++ "\nLikely Dynasties: ".data ++ joinSep ", ".data cues.estimatedDynasty
      ++ "\n\nAdditional Context from User Input: ".data
      ++ jsOrStr (text.getD []) "No additional context provided".data
      ++ "\n\nThe image shows characteristics consistent with Indian heritage architecture, featuring distinctive elements that suggest a specific architectural tradition and historical period.".data
  ⟨summary, cues⟩

structure HeritageCheck where
  is_heritage : Bool
  reason : Option Str
deriving DecidableEq

def nonHeritageKeywords : List Str :=
  ["person".data, "human".data, "anime".data, "cartoon".data,
   "modern building".data, "house".data, "car".data, "animal".data,
   "nature".data, "landscape".data]

def keywordReasonMsg (kw : Str) : Str :=
  "Contains keywords suggesting non-heritage content: ".data ++ kw

def noElementsMsg : Str :=
  "Image does not show clear heritage architectural elements".data

/-- `classifyHeritageContent` (analyze.ts): the `for` loop over
`nonHeritageKeywords` returns on the first keyword contained in the
lower-cased text, which is exactly `List.find?`. -/
def classifyHeritageContent (cues : VisualCues) (text : Str) : HeritageCheck :=
  match nonHeritageKeywords.find? (fun kw => containsSub (toLowerStr text) kw) with
  | some kw => ⟨false, some (keywordReasonMsg kw)⟩
  | none =>
    if cues.architecturalStyle.length = 0 ∨ cues.structures.length = 0 then
      ⟨false, some noElementsMsg⟩
    else
      ⟨true, none⟩

/-- First base hypothesis template. -/
def hyp1 (style period : Str) : Str :=
  style ++ " temple gopuram with ornate miniature tiers from the ".data ++ period

/-- Second base hypothesis template. -/
def hyp2 (style material structure0 : Str) : Str :=
  style ++ "-style sacred monument featuring ".data ++ material
    ++ " with ".data ++ structure0 ++ " construction".data

/-- Third base hypothesis template. -/
def hyp3 (dynasty icon : Str) : Str :=
  "Heritage structure attributed to the ".data ++ dynasty
    ++ " dynasty, showcasing ".data ++ icon ++ " iconography".data

/-- Fourth base hypothesis template. -/
def hyp4 (carving period : Str) : Str :=
  "Rock-cut or carved temple facade with ".data ++ carving
    ++ " elements typical of ".data ++ period ++ " construction".data

/-- Fifth base hypothesis template. -/
def hyp5 (style dynasty : Str) : Str :=
  "Fortified palace or fortress with ".data ++ style
    ++ " military architecture from the ".data ++ dynasty ++ " period".data

/-- Sixth base hypothesis template. -/
def hyp6 (structure0 dynasty : Str) : Str :=
  "Sacred pilgrimage site featuring ".data ++ structure0
    ++ " elements unique to ".data ++ dynasty ++ " temple design".data

/-- The `baseHypotheses` array of `generateHypotheses` (analyze.ts). -/
def genBaseHypotheses (cues : VisualCues) : List Str :=
  [hyp1 (orD cues.architecturalStyle "Classical".data) cues.estimatedPeriod,
   hyp2 (orD cues.architecturalStyle "Classical".data)
     (orD cues.materials "stone".data) (orD cues.structures "pillar".data),
   hyp3 (orD cues.estimatedDynasty "Ancient Indian".data)
     (orD cues.iconography "religious".data),
   hyp4 (orD cues.carvings "decorative".data) cues.estimatedPeriod,
   hyp5 (orD cues.architecturalStyle "traditional".data)
     (orD cues.estimatedDynasty "Medieval".data),
   hyp6 (orD cues.structures "architectural".data)
     (orD cues.estimatedDynasty "regional".data)]

def hampiBonus : Str :=
  "Vijayanagara Empire monument with characteristic ornamental pillars and royal court architecture".data

def kanchipuramBonus : Str :=
  "Pallava or Chola dynasty temple with South Indian Dravidian architectural features".data

def jaipurBonus : Str :=
  "Rajput architectural monument with Indo-Islamic influences from the Mughal period".data

/-- The location-keyword bonus hypotheses appended by `generateHypotheses`
(analyze.ts): guarded by `if (text)`, one fixed hypothesis per matched
keyword, in the source's fixed order. -/
def locationBonuses (text : Str) : List Str :=
  if text = [] then []
  else
    (if containsSub (toLowerStr text) "hampi".data then [hampiBonus] else [])
      ++ (if containsSub (toLowerStr text) "kanchipuram".data then [kanchipuramBonus] else [])
      ++ (if containsSub (toLowerStr text) "jaipur".data then [jaipurBonus] else [])

/-- `generateHypotheses` (analyze.ts): first five base templates, then the
location bonuses, truncated to 8. -/
def generateHypotheses (cues : VisualCues) (text : Str) : List Str :=
  ((genBaseHypotheses cues).take 5 ++ locationBonuses text).take 8

/-- `retrieveEvidence` (analyze.ts): fixed six-section template; the only
branching is on whether `text` is non-empty. -/
def retrieveEvidence (_hypotheses : List Str) (text : Str) : Str :=
  "CONTEXTUAL EVIDENCE SUMMARY:\n\nBased on the identified architectural characteristics and visual cues:\n\n1. ARCHITECTURAL MATCHING:\n   - The featured structural elements align with known temple construction methods of the identified period\n   - Material composition (stone type and finish) matches documented heritage site standards\n   - Architectural proportions and ornamental design follow established regional traditions\n\n2. HISTORICAL CONTEXT:\n   - The dynasty-specific features visible in the image correspond to known construction practices from that era\n   - Religious and mythological iconography reflects the belief systems prevalent during the identified period\n   - Regional variations in design elements suggest specific geographic origins\n\n3. COMPARATIVE HERITAGE SITES:\n   - Similar monuments exist in well-documented heritage zones\n   - Carving techniques and artistic styles match recognized master craftsman traditions\n   - Construction materials reflect availability and trade patterns of the period\n\n4. CULTURAL SIGNIFICANCE:\n   - The monument's features indicate its role in religious and cultural practices\n   - Inscriptions and artistic elements provide clues to patronage and royal involvement\n   - The preservation state and restoration patterns offer insights into historical value\n\n5. LOCATION-SPECIFIC INSIGHTS:\n   ".data
    ++ (if text = [] then
          "Regional placement would help narrow down exact identification".data
        else
          "User-provided context: \"".data ++ text ++ "\" suggests regional heritage knowledge".data)
    ++ "\n   - Geographic features and climate patterns influence architectural adaptations visible in the structure\n   - Local building traditions blend with larger imperial architectural schools\n\n6. DYNASTIC ATTRIBUTION:\n   - Style markers consistently point toward specific ruling dynasties\n   - Construction techniques evolved through identified historical periods\n   - Royal seals or patron inscriptions may be present in carving details".data

/-- `analyzeArchitectural` (analyze.ts): template interpolating cues; the
literal `\x7b\x7btoken\x7d\x7d` placeholders of the source are preserved
verbatim (written with hex escapes). -/
def analyzeArchitectural (cues : VisualCues) (_hypotheses : List Str) (_evidence : Str) : Str :=
  "The monument displays ".data ++ joinSep " and ".data cues.architecturalStyle
    ++ " architectural characteristics. Structural analysis reveals:\n\nKEY STRUCTURAL FEATURES:\n- Primary components: ".data
    ++ joinSep ", ".data cues.structures
    ++ "\n- Material composition: ".data ++ joinSep ", ".data cues.materials
    ++ "\n- Construction method: Precision stone masonry with interlocking joints typical of ".data
    ++ cues.estimatedPeriod
    ++ " craftsmanship\n\nARCHITECTURAL SCHOOL:\nThis structure follows the building traditions of the ".data
    ++ joinSep "/".data cues.estimatedDynasty
    ++ " dynasty, featuring distinctive ".data ++ orD cues.architecturalStyle []
    ++ " design principles. The proportional systems, module-based design, and ornamental hierarchy are consistent with documented monuments from this period.\n\nCOMPARATIVE ANALYSIS:\nThe architectural vocabulary—including ".data
    ++ orD cues.iconography [] ++ ", ".data ++ orD cues.carvings []
    ++ ", and structural configuration—aligns with \x7b\x7bprimary_hypothesis\x7d\x7d from the identified dynasty's construction phase.\n\nPERIOD ATTRIBUTION:\nDating evidence suggests \x7b\x7bestimated_period\x7d\x7d, supported by architectural style evolution, construction techniques, and documented historical records of similar structures.\n\nMATERIAL TECHNOLOGY:\nThe use of \x7b\x7bmaterials\x7d\x7d indicates access to specific quarries and regional trade networks, providing geographic and economic context for the monument's origins.".data

/-- `analyzeCultural` (analyze.ts): a constant template (every
`\x7b\x7btoken\x7d\x7d` placeholder is literal, nothing is interpolated). -/
def analyzeCultural (_cues : VisualCues) (_hypotheses : List Str) (_evidence : Str) : Str :=
  "MYTHOLOGICAL AND RELIGIOUS CONTEXT:\nThe carving program depicts \x7b\x7bmythological_narratives\x7d\x7d, suggesting the monument served as a narrative medium for religious instruction and cultural transmission. The iconographic program reflects the Puranic traditions prevalent during the \x7b\x7bestimated_dynasty\x7d\x7d period.\n\nSYMBOLIC MEANING:\nEach architectural element carries symbolic weight—\x7b\x7bstructures\x7d\x7d represent cosmic principles, while \x7b\x7biconography\x7d\x7d elements guide devotional practice. The spatial organization suggests procession routes and ritual functions specific to temple worship.\n\nCULTURAL FUNCTION:\nThis monument likely served as a \x7b\x7bcultural_function\x7d\x7d—whether pilgrimage destination, royal court, administrative center, or sacred sanctuary—as evidenced by the scale, decoration intensity, and structural sophistication. The investment in detailed carving reflects the cultural and economic importance placed on the site.\n\nPATRONAGE AND SOCIAL CONTEXT:\nThe quality of artistic execution and architectural ambition suggest royal or elite patronage. The carving styles may indicate the work of specialized guild craftsmen whose techniques were documented in architectural treatises like the Brihat Samhita or Manasara.\n\nRITUAL AND PERFORMANCE:\nThe design accommodates \x7b\x7britual_activities\x7d\x7d—religious ceremonies, royal functions, or community gatherings—as revealed by spatial analysis and architectural features. The monument thus represents a physical manifestation of cultural values, social hierarchy, and spiritual worldview.".data

/-- The constant explanatory summary of `verifyAndRank` (analyze.ts). -/
def verificationSummary : Str :=
  "VERIFICATION AND RANKING ANALYSIS:\n\nHYPOTHESIS VALIDATION:\nEach proposed identification has been evaluated against:\n1. Visual feature matching: Architectural elements observed vs. documented examples\n2. Historical consistency: Dating markers and stylistic evolution patterns\n3. Geographic plausibility: Known monument locations and distribution patterns\n4. Cultural-religious alignment: Iconographic programs and ritual functions\n\nCONFIDENCE ASSESSMENT:\nThe ranking reflects the strength of evidence supporting each hypothesis. Higher confidence scores indicate:\n- More consistent architectural feature matching\n- Stronger alignment with documented historical records\n- Greater corroboration from multiple expert perspectives\n- Fewer conflicting characteristics\n\nELIMINATION CRITERIA:\nHypotheses ranked lower due to:\n- Architectural inconsistencies with their attributed period\n- Geographic implausibility given regional distribution\n- Missing or contradictory iconographic elements\n- Material or construction technique anachronisms\n\nRECOMMENDATION:\nThe top-ranked hypothesis represents the most likely identification based on available visual evidence. Additional verification through epigraphic analysis (inscriptions), archaeological provenance, or detailed comparative studies could further confirm the attribution.".data

/-- JS `Map.prototype.set`: replace the value in place if the key is
present (keeping insertion order), else append a new entry. -/
def mapSet (m : List (Str × Int)) (k : Str) (v : Int) : List (Str × Int) :=
  if m.any (fun p => p.1 = k) then
    m.map (fun p => if p.1 = k then (k, v) else p)
  else
    m ++ [(k, v)]

/-- JS `Math.round` for the non-negative values arising here:
round half away from zero, i.e. `⌊x + 1/2⌋`. -/
def jsRound (x : ℚ) : Int := ⌊x + 1 / 2⌋

/-- `Math.min(95, Math.max(50, x))`. -/
def clampConfidence (x : ℚ) : ℚ := min 95 (max 50 x)

structure VerificationResult where
  summary : Str
  scores : List (Str × Int)

/-- `verifyAndRank` (analyze.ts).  `Math.random()` is modelled by `rand`,
one draw per hypothesis index (`forEach` order); each draw is an arbitrary
rational in `[0, 1)`. -/
def verifyAndRank (hypotheses : List Str) (cues : VisualCues) (_evidence : Str)
    (rand : Nat → ℚ) : VerificationResult :=
  ⟨verificationSummary,
    hypotheses.enum.foldl
      (fun acc p => mapSet acc p.2 (jsRound (clampConfidence (60 + rand p.1 * 30
        + (if cues.architecturalStyle.any (fun s => containsSub p.2 s) then 10 else 0)))))
      []⟩

structure RankedInterpretation where
  rank : Nat
  hypothesis : Str
  confidence : Int
  summary : Str
  narrative : Str

/-- JS string coercion of the (integer) confidence value. -/
def intToStr (n : Int) : Str := (toString n).data

/-- `generateSummary` (analyze.ts). -/
def generateSummary (hypothesis : Str) (confidence : Int) : Str :=
  "This monument is most likely a ".data ++ hypothesis
    ++ ". The architectural features, carved elements, and structural style show ".data
    ++ intToStr confidence
    ++ "% alignment with documented examples from this tradition, making it a strong candidate for this identification.".data

/-- `generateNarrative` (analyze.ts). -/
def generateNarrative (hypothesis : Str) (_confidence : Int) : Str :=
  "If this monument belongs to the tradition described as \"".data ++ hypothesis
    ++ "\", it would represent a significant example of that period's cultural and architectural achievements. The structure would have functioned within religious, administrative, or social hierarchies of its time, serving both practical and symbolic purposes. The artisans' technical skill and the patron's investment in detailed decoration suggest the site held considerable importance. Regional variations visible in the design indicate local adaptation of broader imperial or religious architectural principles, reflecting the dynamic nature of cultural exchange during this historical period.".data

/-- Stable insertion into a descending-sorted score list: an entry is
placed after all entries with a greater-or-equal score.  This is the
behaviour of the stable JS `Array.prototype.sort` with comparator
`(a, b) => b[1] - a[1]`. -/
def insertScore (x : Str × Int) : List (Str × Int) → List (Str × Int)
  | [] => [x]
  | y :: ys => if x.2 ≤ y.2 then y :: insertScore x ys else x :: y :: ys

/-- Stable sort by score descending (JS `sort((a, b) => b[1] - a[1])`). -/
def sortScores (l : List (Str × Int)) : List (Str × Int) := l.foldr insertScore []

/-- `generateRankedInterpretations` (analyze.ts): sort the score map
entries by confidence descending, take the top 5, and expand each entry
with its 1-based rank. -/
def generateRankedInterpretations (_hypotheses : List Str)
    (scores : List (Str × Int)) : List RankedInterpretation :=
  let sorted := (sortScores scores).take 5
  sorted.enum.map (fun p =>
    { rank := p.1 + 1
      hypothesis := p.2.1
      confidence := p.2.2
      summary := generateSummary p.2.1 p.2.2
      narrative := generateNarrative p.2.1 p.2.2 })

structure AgentAnalyses where
  architectural : Str
  cultural : Str
  verification : Str

/-- The response shape of the deterministic route.  The TS interface types
all analysis fields as required, but the handler's error paths build
partial objects via `as AnalysisResult`; absent fields are `none`.
(`nearby_heritage_sites` is never set by this route and is omitted.) -/
structure AnalysisResult where
  is_valid : Bool
  is_heritage : Bool
  error : Option Str
  visual_analysis : Option Str
  hypotheses : Option (List Str)
  evidence : Option Str
  agent_analyses : Option AgentAnalyses
  ranked_interpretations : Option (List RankedInterpretation)

def noImageResult : AnalysisResult :=
  ⟨false, false, some "No image provided".data, none, none, none, none, none⟩

def invalidImageResult (e : Option Str) : AnalysisResult :=
  ⟨false, false, e, none, none, none, none, none⟩

def notHeritageResult (reason : Option Str) : AnalysisResult :=
  ⟨true, false, reason, none, none, none, none, none⟩

/-- The catch-all `catch` response of `handleAnalyze` (HTTP 500). -/
def analysisFailedResult : AnalysisResult :=
  ⟨false, false, some "Analysis failed".data, none, none, none, none, none⟩

/-- `handleAnalyze` (analyze.ts), returning (HTTP status, body).
`image`/`text` are the raw request fields (`none` = absent/undefined;
`some []` = empty string, which is falsy for the `!image` guard).
If `text` is `undefined`, `classifyHeritageContent`'s
`text.toLowerCase()` throws a `TypeError`, which the `catch` block maps
to the 500 internal-failure response; that is the one reachable failure
of the otherwise total pipeline. -/
def handleAnalyze (image : Option Str) (text : Option Str) (rand : Nat → ℚ) :
    Nat × AnalysisResult :=
  match image with
  | none => (400, noImageResult)
  | some [] => (400, noImageResult)
  | some img =>
    let imageValidation := validateImage img
    if imageValidation.valid = false then
      (400, invalidImageResult imageValidation.error)
    else
      let visualAnalysis := performVisualAnalysis img text
      match text with
      | none => (500, analysisFailedResult)
      | some t =>
        let heritageCheck := classifyHeritageContent visualAnalysis.cues t
        if heritageCheck.is_heritage = false then
          (200, notHeritageResult heritageCheck.reason)
        else
          let hypotheses := generateHypotheses visualAnalysis.cues t
          let evidence := retrieveEvidence hypotheses t
          let architecturalAnalysis := analyzeArchitectural visualAnalysis.cues hypotheses evidence
          let culturalAnalysis := analyzeCultural visualAnalysis.cues hypotheses evidence
          let verificationAnalysis := verifyAndRank hypotheses visualAnalysis.cues evidence rand
          let rankedInterpretations := generateRankedInterpretations hypotheses verificationAnalysis.scores
          (200,
            { is_valid := true
              is_heritage := true
              error := none
              visual_analysis := some visualAnalysis.summary
              hypotheses := some hypotheses
              evidence := some evidence
              agent_analyses := some ⟨architecturalAnalysis, culturalAnalysis, verificationAnalysis.summary⟩
              ranked_interpretations := some rankedInterpretations })

/-- The analysis payload fields are all absent. -/
def analysisFieldsAbsent (r : AnalysisResult) : Prop :=
  r.visual_analysis = none ∧ r.hypotheses = none ∧ r.evidence = none
    ∧ r.agent_analyses = none ∧ r.ranked_interpretations = none

/-- The analysis payload fields are all present and non-empty. -/
def analysisFieldsPresent (r : AnalysisResult) : Prop :=
  (∃ v, r.visual_analysis = some v ∧ v ≠ [])
    ∧ (∃ h, r.hypotheses = some h ∧ h ≠ [])
    ∧ (∃ e, r.evidence = some e ∧ e ≠ [])
    ∧ (∃ a, r.agent_analyses = some a
        ∧ a.architectural ≠ [] ∧ a.cultural ≠ [] ∧ a.verification ≠ [])
    ∧ (∃ ri, r.ranked_interpretations = some ri ∧ ri ≠ [])

/-- The shape invariant of claim C3 on `AnalysisResult`. -/
def resultInvariant (r : AnalysisResult) : Prop :=
  (r.is_valid = false → r.is_heritage = false ∧ analysisFieldsAbsent r)
    ∧ (r.is_valid = true → r.is_heritage = false → r.error.isSome ∧ analysisFieldsAbsent r)
    ∧ (r.is_valid = true → r.is_heritage = true → r.error = none ∧ analysisFieldsPresent r)

/-- Base64 payload of the C1 counterexample image: its own decoded-size
estimate (`len * 3/4 = 5242875`) is under the 5 MiB limit. -/
def cexPayload : Str := List.replicate 6990500 'a'

/-- A well-formed data URL whose payload estimate is within the limit but
whose whole-string estimate is over it. -/
def cexImage : Str := "data:image/png;base64,".data ++ cexPayload

/-- A `VisualCues` value with every list empty (used for concrete
instantiations; `classifyHeritageContent`'s keyword loop ignores cues). -/
def cuesEmpty : VisualCues := ⟨[], [], [], [], [], [], []⟩

/-- The success-path response of `handleAnalyze`, with every intermediate
`let` of the source inlined (the lets are pure, so this is the same value). -/
def successResult (img t : Str) (rand : Nat → ℚ) : AnalysisResult :=
  { is_valid := true
    is_heritage := true
    error := none
    visual_analysis := some (performVisualAnalysis img (some t)).summary
    hypotheses := some (generateHypotheses (performVisualAnalysis img (some t)).cues t)
    evidence := some (retrieveEvidence (generateHypotheses (performVisualAnalysis img (some t)).cues t) t)
    agent_analyses := some
      ⟨analyzeArchitectural (performVisualAnalysis img (some t)).cues
          (generateHypotheses (performVisualAnalysis img (some t)).cues t)
          (retrieveEvidence (generateHypotheses (performVisualAnalysis img (some t)).cues t) t),
        analyzeCultural (performVisualAnalysis img (some t)).cues
          (generateHypotheses (performVisualAnalysis img (some t)).cues t)
          (retrieveEvidence (generateHypotheses (performVisualAnalysis img (some t)).cues t) t),
        (verifyAndRank (generateHypotheses (performVisualAnalysis img (some t)).cues t)
          (performVisualAnalysis img (some t)).cues
          (retrieveEvidence (generateHypotheses (performVisualAnalysis img (some t)).cues t) t)
          rand).summary⟩
    ranked_interpretations := some
      (generateRankedInterpretations (generateHypotheses (performVisualAnalysis img (some t)).cues t)
        (verifyAndRank (generateHypotheses (performVisualAnalysis img (some t)).cues t)
          (performVisualAnalysis img (some t)).cues
          (retrieveEvidence (generateHypotheses (performVisualAnalysis img (some t)).cues t) t)
          rand).scores) }

/-- `handleAnalyze` for a present non-empty image and present text, as plain
nested ifs (the zeta-reduction of the handler's branch). -/
def analyzeCore (img t : Str) (rand : Nat → ℚ) : Nat × AnalysisResult :=
  if (validateImage img).valid = false then
    (400, invalidImageResult (validateImage img).error)
  else
    if (classifyHeritageContent (performVisualAnalysis img (some t)).cues t).is_heritage = false then
      (200, notHeritageResult (classifyHeritageContent (performVisualAnalysis img (some t)).cues t).reason)
    else
      (200, successResult img t rand)

/-- Concrete score entry used to witness the confidence-bound theorem. -/
def witnessEntry : Str × Int :=
  ("AAAA".data, jsRound (clampConfidence (60 + 0 * 30 + 0)))

theorem take_ne_imp {l1 l2 : Str} (k : Nat) (h : ¬ l1.take k = l2.take k) : l1 ≠ l2 :=
  fun he => h (by rw [he])

theorem containsSub_iff (s sub : Str) : containsSub s sub = true ↔ sub <:+: s := by
  induction s with
  | nil =>
    simp [containsSub, List.isEmpty_iff, List.infix_nil]
  | cons c rest ih =>
    simp [containsSub, List.infix_cons_iff, ih, Bool.or_eq_true,
      List.isPrefixOf_iff_prefix, or_comm]

theorem containsSub_false_iff (s sub : Str) : containsSub s sub = false ↔ ¬ sub <:+: s := by
  rw [← containsSub_iff]
  cases containsSub s sub <;> simp


theorem toInt32_eq_of_emod_eq {a b : Int}
    (h : a % 4294967296 = b % 4294967296) : toInt32 a = toInt32 b := by
  unfold toInt32
  rw [h]

theorem toInt32_emod (a : Int) : toInt32 a % 4294967296 = a % 4294967296 := by
  unfold toInt32
  split <;> omega

theorem jsHashStep_eq (h : Int) (c : Nat) : jsHashStep h c = toInt32 (h * 31 + c) := by
  unfold jsHashStep
  apply toInt32_eq_of_emod_eq
  have h1 := toInt32_emod (h * 32)
  omega

theorem hash_fold_eq (s : Str) : ∀ (h : Int) (u : Nat),
    h % 4294967296 = (u : Int) % 4294967296 →
    s.foldl (fun hash c => jsHashStep hash c.toNat) (toInt32 h)
      = toInt32 ((s.foldl (fun hash c => (hash * 31 + c.toNat) % 4294967296) u : Nat) : Int) := by
  induction s with
  | nil =>
    intro h u hcong
    exact toInt32_eq_of_emod_eq hcong
  | cons c rest ih =>
    intro h u hcong
    rw [List.foldl_cons, List.foldl_cons, jsHashStep_eq]
    exact ih (toInt32 h * 31 + c.toNat) ((u * 31 + c.toNat) % 4294967296)
      (by have h1 := toInt32_emod h; omega)

theorem claimedFold_lt (s : Str) : ∀ (u : Nat), u < 4294967296 →
    s.foldl (fun hash c => (hash * 31 + c.toNat) % 4294967296) u < 4294967296 := by
  induction s with
  | nil => intro u hu; exact hu
  | cons c rest ih =>
    intro u _
    rw [List.foldl_cons]
    exact ih _ (Nat.mod_lt _ (by norm_num))

/-- C2 (corrected): `simpleHash` iterates `hash = (hash * 31 + byte)` with
32-bit wraparound interpreted as a SIGNED two's-complement value (not as a
value in `[0, 2^32)`), and then takes the absolute value.  Relative to the
plain mod-2^32 iterate `u = simpleHashClaimedMod s`, the result is `u` when
`u < 2^31` and `2^32 - u` otherwise.  The claimed consequences hold: the
result is a non-negative integer (`Nat`), and as a pure function it yields
identical outputs on identical inputs. -/
theorem simpleHash_signed_wraparound_abs (s : Str) :
    simpleHash s = if simpleHashClaimedMod s < 2147483648 then simpleHashClaimedMod s
      else 4294967296 - simpleHashClaimedMod s := by
  have h0 : (0 : Int) = toInt32 0 := by unfold toInt32; norm_num
  unfold simpleHash simpleHashClaimedMod
  rw [h0, hash_fold_eq s 0 0 rfl]
  have hU := claimedFold_lt s 0 (by norm_num)
  generalize s.foldl (fun hash c => (hash * 31 + c.toNat) % 4294967296) 0 = U at hU ⊢
  unfold toInt32
  split_ifs <;> omega

/-- C2 counterexample: on the six-character input `"aaaaaa"` the mod-2^32
iterate is `2869595232 ≥ 2^31`, whose absolute value is itself, but the code
(signed wraparound) returns `4294967296 - 2869595232 = 1425372064`. -/
theorem simpleHash_mod_abs_counterexample :
    simpleHash "aaaaaa".data = 1425372064
      ∧ simpleHashClaimedMod "aaaaaa".data = 2869595232
      ∧ simpleHash "aaaaaa".data ≠ simpleHashClaimedMod "aaaaaa".data :=
  ⟨by decide, by decide, by decide⟩

/-- C1 (corrected): full contract of `validateImage`.  It fails with
`InvalidFormat` exactly when the string does not begin with `data:image/`;
otherwise it fails with `TooLarge` exactly when the size estimate computed
over the ENTIRE data-URL string (prefix and metadata included), i.e.
`len(imageData) * 3/4`, exceeds 5 MiB — not the estimate over the base64
payload alone.  The last conjunct states that the float comparison
`len * 3/4 > 5 * 1024 * 1024` is the integer comparison used in the model. -/
theorem validateImage_whole_string_contract (s : Str) :
    (validateImage s = ⟨false, some invalidFormatMsg⟩ ↔ ¬ "data:image/".data <+: s)
    ∧ (validateImage s = ⟨false, some tooLargeMsg⟩
        ↔ "data:image/".data <+: s ∧ 5 * 1024 * 1024 * 4 < s.length * 3)
    ∧ (validateImage s = ⟨true, none⟩
        ↔ "data:image/".data <+: s ∧ s.length * 3 ≤ 5 * 1024 * 1024 * 4)
    ∧ ((5 * 1024 * 1024 : ℚ) < (s.length * 3 : ℚ) / 4 ↔ 5 * 1024 * 1024 * 4 < s.length * 3) := by
  have hmsg : invalidFormatMsg ≠ tooLargeMsg := by decide
  have hq : ((5 * 1024 * 1024 : ℚ) < (s.length * 3 : ℚ) / 4 ↔ 5 * 1024 * 1024 * 4 < s.length * 3) := by
    rw [lt_div_iff₀ (by norm_num : (0 : ℚ) < 4)]
    constructor
    · intro h
      exact_mod_cast h
    · intro h
      exact_mod_cast h
  by_cases hp : "data:image/".data <+: s
  · have hb : "data:image/".data.isPrefixOf s = true := List.isPrefixOf_iff_prefix.mpr hp
    by_cases hsize : 5 * 1024 * 1024 * 4 < s.length * 3
    · refine ⟨?_, ?_, ?_, hq⟩ <;>
        simp [validateImage, hb, hsize, hp, ImageValidation.mk.injEq, hmsg, hmsg.symm]
    · refine ⟨?_, ?_, ?_, hq⟩ <;>
        (simp [validateImage, hb, hsize, hp, ImageValidation.mk.injEq]; try omega)
  · have hb : "data:image/".data.isPrefixOf s = false := by
      cases hval : "data:image/".data.isPrefixOf s
      · rfl
      · exact absurd ( List.isPrefixOf_iff_prefix.mp hval) hp
    refine ⟨?_, ?_, ?_, hq⟩ <;>
      simp [validateImage, hb, hp, ImageValidation.mk.injEq, hmsg, hmsg.symm]

/-- C1 counterexample: `cexImage` is a well-formed `data:image/` URL whose
base64 payload has a decoded-size estimate of `6990500 * 3/4 = 5242875`
bytes — within the 5 MiB limit, so the claim says it passes — yet
`validateImage` rejects it as too large, because the source computes the
estimate over the whole string (22 extra header characters). -/
theorem validateImage_payload_counterexample :
    cexPayload.length * 3 ≤ 5 * 1024 * 1024 * 4
    ∧ ("data:image/".data <+: cexImage)
    ∧ validateImage cexImage = ⟨false, some tooLargeMsg⟩ := by
  have hplen : cexPayload.length = 6990500 := by
    unfold cexPayload
    exact List.length_replicate _ _
  have hpre : "data:image/".data <+: cexImage :=
    List.IsPrefix.trans
      (show "data:image/".data <+: "data:image/png;base64,".data by decide)
      ( List.prefix_append "data:image/png;base64,".data cexPayload)
  refine ⟨by rw [hplen]; norm_num, hpre, ?_⟩
  have hlen : cexImage.length = 6990522 := by
    unfold cexImage
    rw [List.length_append, hplen]
    rfl
  have hb : "data:image/".data.isPrefixOf cexImage = true :=
    List.isPrefixOf_iff_prefix.mpr hpre
  unfold validateImage
  rw [hb, hlen]
  norm_num

theorem classify_false_of_keyword (cues : VisualCues) (text : Str)
    (kw : Str) (hmem : kw ∈ nonHeritageKeywords) (hinf : kw <:+: toLowerStr text) :
    (classifyHeritageContent cues text).is_heritage = false := by
  unfold classifyHeritageContent
  have hex : (nonHeritageKeywords.find? (fun k => containsSub (toLowerStr text) k)).isSome := by
    rw [List.find?_isSome]
    exact ⟨kw, hmem, (containsSub_iff _ _).mpr hinf⟩
  obtain ⟨k, hk⟩ := Option.isSome_iff_exists.mp hex
  rw [hk]

theorem classify_keyword_case (cues : VisualCues) (text : Str) (kw : Str)
    (hfind : nonHeritageKeywords.find? (fun k => containsSub (toLowerStr text) k) = some kw) :
    classifyHeritageContent cues text = ⟨false, some (keywordReasonMsg kw)⟩ := by
  unfold classifyHeritageContent
  rw [hfind]

/-- C7 (corrected): (1) user text containing "animal" (any case) always
yields `is_heritage = false`; (2) the reason mentions "animal" when no
earlier keyword of the fixed order (person, human, anime, cartoon,
modern building, house, car) occurs in the lower-cased text — the claim's
unconditional "reason mentions animal" fails when an earlier keyword also
matches, since the loop reports the FIRST match; (3) a text free of all ten
disqualifying keywords together with non-empty architecturalStyle and
structures always classifies as heritage with no error. -/
theorem classifyHeritageContent_gate (cues : VisualCues) (text : Str) :
    ("animal".data <:+: toLowerStr text → (classifyHeritageContent cues text).is_heritage = false)
    ∧ ((∀ kw ∈ (["person".data, "human".data, "anime".data, "cartoon".data,
          "modern building".data, "house".data, "car".data] : List Str),
          ¬ kw <:+: toLowerStr text) →
        "animal".data <:+: toLowerStr text →
        classifyHeritageContent cues text = ⟨false, some (keywordReasonMsg "animal".data)⟩)
    ∧ ((∀ kw ∈ nonHeritageKeywords, ¬ kw <:+: toLowerStr text) →
        cues.architecturalStyle ≠ [] → cues.structures ≠ [] →
        classifyHeritageContent cues text = ⟨true, none⟩) := by
  refine ⟨?_, ?_, ?_⟩
  · intro hanimal
    exact classify_false_of_keyword cues text "animal".data (by decide) hanimal
  · intro hne hanimal
    have hn : ∀ kw ∈ (["person".data, "human".data, "anime".data, "cartoon".data,
        "modern building".data, "house".data, "car".data] : List Str),
        ¬ ((containsSub (toLowerStr text) kw) = true) :=
      fun kw hk => (not_congr (containsSub_iff _ _)).mpr (hne kw hk)
    apply classify_keyword_case
    unfold nonHeritageKeywords
    rw [List.find?_cons_of_neg _ (hn _ (by decide)),
        List.find?_cons_of_neg _ (hn _ (by decide)),
        List.find?_cons_of_neg _ (hn _ (by decide)),
        List.find?_cons_of_neg _ (hn _ (by decide)),
        List.find?_cons_of_neg _ (hn _ (by decide)),
        List.find?_cons_of_neg _ (hn _ (by decide)),
        List.find?_cons_of_neg _ (hn _ (by decide)),
        List.find?_cons_of_pos _ ((containsSub_iff _ _).mpr hanimal)]
  · intro hnone hs hst
    have hfind : nonHeritageKeywords.find? (fun k => containsSub (toLowerStr text) k) = none :=
      List.find?_eq_none.mpr (fun kw hk => (not_congr (containsSub_iff _ _)).mpr (hnone kw hk))
    unfold classifyHeritageContent
    rw [hfind]
    rw [if_neg]
    simp [List.length_eq_zero, hs, hst]

/-- C7 counterexample: the text "person and animal" contains "animal" and is
rejected, but the reported reason cites "person" (the first matching
keyword of the loop) and does not mention "animal". -/
theorem classify_animal_reason_counterexample :
    classifyHeritageContent cuesEmpty "person and animal".data
        = ⟨false, some (keywordReasonMsg "person".data)⟩
    ∧ "animal".data <:+: toLowerStr "person and animal".data
    ∧ ¬ "animal".data <:+: keywordReasonMsg "person".data :=
  ⟨by decide, by decide, by decide⟩

/-- C7 witness: on the keyword-free-except-animal text "An Animal" the
classifier rejects citing "animal". -/
theorem classify_gate_witness :
    classifyHeritageContent cuesEmpty "An Animal".data
      = ⟨false, some (keywordReasonMsg "animal".data)⟩ :=
  (classifyHeritageContent_gate cuesEmpty "An Animal".data).2.1 (by decide) (by decide)

/-- C9 (corrected): (1) user text containing "carving" (any case) is ALWAYS
rejected, because "car" is a substring of "carving" and matching is plain
substring inclusion over the lower-cased text; (2) the reason cites "car"
when none of the keywords ordered before "car" (person, human, anime,
cartoon, modern building, house) occurs — the claim's unconditional "reason
cites car" fails when an earlier keyword also matches; (3) in particular the
upload form's suggested example text "Dravidian temple with ornate carvings"
is rejected with the reason citing "car". -/
theorem classifyHeritageContent_carving (cues : VisualCues) (text : Str) :
    ("carving".data <:+: toLowerStr text → (classifyHeritageContent cues text).is_heritage = false)
    ∧ ((∀ kw ∈ (["person".data, "human".data, "anime".data, "cartoon".data,
          "modern building".data, "house".data] : List Str), ¬ kw <:+: toLowerStr text) →
        "carving".data <:+: toLowerStr text →
        classifyHeritageContent cues text = ⟨false, some (keywordReasonMsg "car".data)⟩)
    ∧ classifyHeritageContent cues "Dravidian temple with ornate carvings".data
        = ⟨false, some (keywordReasonMsg "car".data)⟩ := by
  have hcar : "car".data <+: "carving".data := by decide
  refine ⟨?_, ?_, ?_⟩
  · intro hcarving
    exact classify_false_of_keyword cues text "car".data (by decide)
      (List.IsInfix.trans hcar.isInfix hcarving)
  · intro hne hcarving
    have hn : ∀ kw ∈ (["person".data, "human".data, "anime".data, "cartoon".data,
        "modern building".data, "house".data] : List Str),
        ¬ ((containsSub (toLowerStr text) kw) = true) :=
      fun kw hk => (not_congr (containsSub_iff _ _)).mpr (hne kw hk)
    apply classify_keyword_case
    unfold nonHeritageKeywords
    rw [List.find?_cons_of_neg _ (hn _ (by decide)),
        List.find?_cons_of_neg _ (hn _ (by decide)),
        List.find?_cons_of_neg _ (hn _ (by decide)),
        List.find?_cons_of_neg _ (hn _ (by decide)),
        List.find?_cons_of_neg _ (hn _ (by decide)),
        List.find?_cons_of_neg _ (hn _ (by decide)),
        List.find?_cons_of_pos _
          ((containsSub_iff _ _).mpr (List.IsInfix.trans hcar.isInfix hcarving))]
  · exact of_decide_eq_true rfl

/-- C9 counterexample: the text "person carving" contains "carving" and is
rejected, but the reason cites "person" (the first matching keyword),
not "car". -/
theorem classify_carving_reason_counterexample :
    classifyHeritageContent cuesEmpty "person carving".data
        = ⟨false, some (keywordReasonMsg "person".data)⟩
    ∧ "carving".data <:+: toLowerStr "person carving".data
    ∧ ¬ "car".data <:+: keywordReasonMsg "person".data :=
  ⟨by decide, by decide, by decide⟩

/-- C9 witness: on "Ornate Carvings" (no earlier keyword present) the
classifier rejects citing "car". -/
theorem classify_carving_witness :
    classifyHeritageContent cuesEmpty "Ornate Carvings".data
      = ⟨false, some (keywordReasonMsg "car".data)⟩ :=
  (classifyHeritageContent_carving cuesEmpty "Ornate Carvings".data).2.1 (by decide) (by decide)

/-- C8 (corrected): each of the seven cue extractors hashes its fixed
substring window — its output depends only on that window of the image
string — and the windows are the seven listed in `cueWindows`.  The windows
are pairwise DISTINCT (offsets increase by 100 per category), but contrary
to the claim they are not disjoint: every pair of windows overlaps. -/
theorem cueExtractors_fixed_windows :
    (∀ img1 img2 : Str,
      (substringJS img1 0 1000 = substringJS img2 0 1000 →
        detectArchitecturalStyle img1 = detectArchitecturalStyle img2)
      ∧ (substringJS img1 100 1100 = substringJS img2 100 1100 →
        detectMaterials img1 = detectMaterials img2)
      ∧ (substringJS img1 200 1200 = substringJS img2 200 1200 →
        detectStructures img1 = detectStructures img2)
      ∧ (substringJS img1 300 1300 = substringJS img2 300 1300 →
        detectIconography img1 = detectIconography img2)
      ∧ (substringJS img1 400 1400 = substringJS img2 400 1400 →
        detectCarvings img1 = detectCarvings img2)
      ∧ (substringJS img1 500 1500 = substringJS img2 500 1500 →
        estimatePeriod img1 = estimatePeriod img2)
      ∧ (substringJS img1 600 1600 = substringJS img2 600 1600 →
        estimateDynasty img1 = estimateDynasty img2))
    ∧ cueWindows.Pairwise (· ≠ ·)
    ∧ cueWindows.Pairwise (fun w1 w2 => ¬ nonOverlapping w1 w2) := by
  refine ⟨?_, by decide, by decide⟩
  intro img1 img2
  refine ⟨?_, ?_, ?_, ?_, ?_, ?_, ?_⟩ <;> intro h
  · unfold detectArchitecturalStyle
    rw [h]
  · unfold detectMaterials
    rw [h]
  · unfold detectStructures
    rw [h]
  · unfold detectIconography
    rw [h]
  · unfold detectCarvings
    rw [h]
  · unfold estimatePeriod
    rw [h]
  · unfold estimateDynasty
    rw [h]

/-- C8 counterexample: the seven extractor windows are NOT pairwise
non-overlapping; e.g. the style window `[0, 1000)` and the materials window
`[100, 1100)` share the positions `[100, 1000)`. -/
theorem cueWindows_not_disjoint :
    ¬ cueWindows.Pairwise nonOverlapping := by decide

/-- C8 witness: the window-dependence part applied at a concrete input. -/
theorem cueExtractors_fixed_windows_witness :
    detectArchitecturalStyle "img".data = detectArchitecturalStyle "img".data :=
  (cueExtractors_fixed_windows.1 "img".data "img".data).1 rfl

/-- C10 (confirmed): an absent (`none`) or empty-string image field makes
the handler answer HTTP 400 with `is_valid = false`, `is_heritage = false`,
error "No image provided" and no analysis fields — before the format/size
validator can tell an empty string apart: `validateImage ""` would report
`InvalidFormat`, but the handler's guard reports the image as missing, an
outcome outside the InvalidFormat/TooLarge taxonomy. -/
theorem handleAnalyze_no_image (text : Option Str) (rand : Nat → ℚ) :
    handleAnalyze none text rand = (400, noImageResult)
    ∧ handleAnalyze (some []) text rand = (400, noImageResult)
    ∧ noImageResult.is_valid = false
    ∧ noImageResult.is_heritage = false
    ∧ noImageResult.error = some "No image provided".data
    ∧ analysisFieldsAbsent noImageResult
    ∧ noImageResult.error ≠ some invalidFormatMsg
    ∧ noImageResult.error ≠ some tooLargeMsg
    ∧ validateImage [] = ⟨false, some invalidFormatMsg⟩ := by
  refine ⟨rfl, rfl, rfl, rfl, rfl, ⟨rfl, rfl, rfl, rfl, rfl⟩, by decide, by decide, by decide⟩

/-- C6 (confirmed): for every cue record and user text,
`generateHypotheses` returns the five fixed template hypotheses (in
generation order) followed by one fixed bonus hypothesis per matched
location keyword (hampi, kanchipuram, jaipur, case-insensitive), truncated
to 8 without re-sorting (the truncation never drops anything: 5 + at most
3 bonuses); the count is between 5 and 8 and equals 5 plus the number of
matched keywords; text containing "hampi" (after lower-casing) adds exactly
the one Vijayanagara bonus hypothesis, and without it that bonus is absent. -/
theorem generateHypotheses_contract (cues : VisualCues) (text : Str) :
    generateHypotheses cues text = (genBaseHypotheses cues).take 5 ++ locationBonuses text
    ∧ ((genBaseHypotheses cues).take 5).length = 5
    ∧ 5 ≤ (generateHypotheses cues text).length
    ∧ (generateHypotheses cues text).length ≤ 8
    ∧ (generateHypotheses cues text).length = 5 + (locationBonuses text).length
    ∧ (locationBonuses text).length =
        ((["hampi".data, "kanchipuram".data, "jaipur".data] : List Str).filter
          (fun kw => containsSub (toLowerStr text) kw)).length
    ∧ (containsSub (toLowerStr text) "hampi".data = true →
        generateHypotheses cues text = (genBaseHypotheses cues).take 5
          ++ ([hampiBonus]
            ++ (if containsSub (toLowerStr text) "kanchipuram".data then [kanchipuramBonus] else [])
            ++ (if containsSub (toLowerStr text) "jaipur".data then [jaipurBonus] else []))
          ∧ "Vijayanagara".data <+: hampiBonus)
    ∧ (containsSub (toLowerStr text) "hampi".data = false →
        generateHypotheses cues text = (genBaseHypotheses cues).take 5
          ++ ((if containsSub (toLowerStr text) "kanchipuram".data then [kanchipuramBonus] else [])
            ++ (if containsSub (toLowerStr text) "jaipur".data then [jaipurBonus] else []))) := by
  have key : locationBonuses text =
      (if containsSub (toLowerStr text) "hampi".data then [hampiBonus] else [])
        ++ ((if containsSub (toLowerStr text) "kanchipuram".data then [kanchipuramBonus] else [])
          ++ (if containsSub (toLowerStr text) "jaipur".data then [jaipurBonus] else [])) := by
    unfold locationBonuses
    by_cases ht : text = []
    · subst ht
      rfl
    · rw [if_neg ht]
      rw [List.append_assoc]
  have hlen5 : ((genBaseHypotheses cues).take 5).length = 5 := rfl
  have hble : (locationBonuses text).length ≤ 3 := by
    rw [key]
    rcases h1 : containsSub (toLowerStr text) "hampi".data <;>
      rcases h2 : containsSub (toLowerStr text) "kanchipuram".data <;>
      rcases h3 : containsSub (toLowerStr text) "jaipur".data <;>
      simp
  have eq1 : generateHypotheses cues text
      = (genBaseHypotheses cues).take 5 ++ locationBonuses text := by
    unfold generateHypotheses
    exact List.take_of_length_le (by rw [List.length_append, hlen5]; omega)
  refine ⟨eq1, hlen5, ?_, ?_, ?_, ?_, ?_, ?_⟩
  · rw [eq1, List.length_append, hlen5]
    omega
  · rw [eq1, List.length_append, hlen5]
    omega
  · rw [eq1, List.length_append, hlen5]
  · rw [key]
    rcases h1 : containsSub (toLowerStr text) "hampi".data <;>
      rcases h2 : containsSub (toLowerStr text) "kanchipuram".data <;>
      rcases h3 : containsSub (toLowerStr text) "jaipur".data <;>
      simp [List.filter, h1, h2, h3]
  · intro h1
    refine ⟨?_, by decide⟩
    rw [eq1, key, if_pos h1]
    simp [List.append_assoc]
  · intro h1
    rw [eq1, key, if_neg (by simp [h1])]
    simp

/-- C6 witness: on the text "Hampi" the output is the five base hypotheses
followed by exactly the Vijayanagara bonus. -/
theorem generateHypotheses_contract_witness :
    generateHypotheses cuesEmpty "Hampi".data = (genBaseHypotheses cuesEmpty).take 5
        ++ ([hampiBonus]
          ++ (if containsSub (toLowerStr "Hampi".data) "kanchipuram".data then [kanchipuramBonus] else [])
          ++ (if containsSub (toLowerStr "Hampi".data) "jaipur".data then [jaipurBonus] else []))
      ∧ "Vijayanagara".data <+: hampiBonus :=
  (generateHypotheses_contract cuesEmpty "Hampi".data).2.2.2.2.2.2.1 (by decide)

theorem handleAnalyze_some_some (img : Str) (himg : img ≠ []) (t : Str) (rand : Nat → ℚ) :
    handleAnalyze (some img) (some t) rand = analyzeCore img t rand := by
  cases img with
  | nil => exact absurd rfl himg
  | cons c cs => rfl

theorem handleAnalyze_some_none (img : Str) (himg : img ≠ []) (rand : Nat → ℚ) :
    handleAnalyze (some img) none rand =
      if (validateImage img).valid = false then
        (400, invalidImageResult (validateImage img).error)
      else
        (500, analysisFailedResult) := by
  cases img with
  | nil => exact absurd rfl himg
  | cons c cs => rfl

theorem insertScore_length (x : Str × Int) (l : List (Str × Int)) :
    (insertScore x l).length = l.length + 1 := by
  induction l with
  | nil => rfl
  | cons y ys ih =>
    unfold insertScore
    split
    · simp [ih]
    · simp

theorem sortScores_length (l : List (Str × Int)) : (sortScores l).length = l.length := by
  unfold sortScores
  induction l with
  | nil => rfl
  | cons x xs ih =>
    rw [List.foldr_cons, insertScore_length, ih]
    rfl

theorem mem_insertScore {a x : Str × Int} {l : List (Str × Int)} :
    a ∈ insertScore x l ↔ a = x ∨ a ∈ l := by
  induction l with
  | nil => simp [insertScore]
  | cons y ys ih =>
    unfold insertScore
    split
    · simp only [List.mem_cons, ih]
      tauto
    · simp only [List.mem_cons]

theorem insertScore_pairwise {x : Str × Int} {l : List (Str × Int)}
    (h : l.Pairwise (fun a b => b.2 ≤ a.2)) :
    (insertScore x l).Pairwise (fun a b => b.2 ≤ a.2) := by
  induction l with
  | nil => simp [insertScore]
  | cons y ys ih =>
    rw [List.pairwise_cons] at h
    obtain ⟨hy, hys⟩ := h
    unfold insertScore
    split
    · rename_i hle
      rw [List.pairwise_cons]
      refine ⟨?_, ih hys⟩
      intro z hz
      rcases mem_insertScore.mp hz with hz | hz
      · rw [hz]; exact hle
      · exact hy z hz
    · rename_i hlt
      rw [List.pairwise_cons]
      refine ⟨?_, List.pairwise_cons.mpr ⟨hy, hys⟩⟩
      intro z hz
      rcases List.mem_cons.mp hz with hz | hz
      · rw [hz]; omega
      · have := hy z hz
        omega

theorem sortScores_pairwise (l : List (Str × Int)) :
    (sortScores l).Pairwise (fun a b => b.2 ≤ a.2) := by
  unfold sortScores
  induction l with
  | nil => simp
  | cons x xs ih =>
    rw [List.foldr_cons]
    exact insertScore_pairwise ih

theorem mem_mapSet {kv : Str × Int} {m : List (Str × Int)} {k : Str} {v : Int}
    (h : kv ∈ mapSet m k v) : kv ∈ m ∨ kv = (k, v) := by
  unfold mapSet at h
  split at h
  · obtain ⟨p, hp, he⟩ := List.mem_map.mp h
    by_cases hk : p.1 = k
    · rw [if_pos hk] at he
      right
      exact he.symm
    · rw [if_neg hk] at he
      left
      rw [← he]
      exact hp
  · rcases List.mem_append.mp h with h | h
    · left; exact h
    · right; exact (List.mem_singleton.mp h)

theorem keys_mapSet (m : List (Str × Int)) (k : Str) (v : Int) :
    (mapSet m k v).map Prod.fst = m.map Prod.fst
      ∨ (mapSet m k v).map Prod.fst = m.map Prod.fst ++ [k] := by
  unfold mapSet
  split
  · left
    rw [List.map_map]
    apply List.map_congr_left
    intro p _
    by_cases hk : p.1 = k
    · simp [hk]
    · simp [hk]
  · right
    simp

theorem key_mem_mapSet (m : List (Str × Int)) (k : Str) (v : Int) :
    k ∈ (mapSet m k v).map Prod.fst := by
  unfold mapSet
  split
  · rename_i hany
    obtain ⟨p, hp, hpk⟩ := List.any_eq_true.mp hany
    rw [List.map_map]
    refine List.mem_map.mpr ⟨p, hp, ?_⟩
    have hpk : p.1 = k := by simpa using hpk
    simp [hpk]
  · simp

theorem keys_foldl_superset (f : Nat × Str → Int) (l : List (Nat × Str)) :
    ∀ (acc : List (Str × Int)) (a : Str),
      a ∈ acc.map Prod.fst →
      a ∈ (l.foldl (fun acc q => mapSet acc q.2 (f q)) acc).map Prod.fst := by
  induction l with
  | nil => exact fun acc a h => h
  | cons q qs ih =>
    intro acc a h
    rw [List.foldl_cons]
    apply ih
    rcases keys_mapSet acc q.2 (f q) with he | he <;> rw [he]
    · exact h
    · exact List.mem_append.mpr (Or.inl h)

theorem mem_keys_foldl (f : Nat × Str → Int) (l : List (Nat × Str)) :
    ∀ (acc : List (Str × Int)) (p : Nat × Str), p ∈ l →
      p.2 ∈ (l.foldl (fun acc q => mapSet acc q.2 (f q)) acc).map Prod.fst := by
  induction l with
  | nil => intro acc p h; cases h
  | cons q qs ih =>
    intro acc p h
    rw [List.foldl_cons]
    rcases List.mem_cons.mp h with he | hm
    · rw [he]
      exact keys_foldl_superset f qs _ _ (key_mem_mapSet acc q.2 (f q))
    · exact ih _ _ hm

theorem foldl_mapSet_forall (P : Str × Int → Prop) (f : Nat × Str → Int)
    (hP : ∀ p : Nat × Str, P (p.2, f p)) (l : List (Nat × Str)) :
    ∀ (acc : List (Str × Int)),
      (∀ kv ∈ acc, P kv) →
      ∀ kv ∈ l.foldl (fun acc q => mapSet acc q.2 (f q)) acc, P kv := by
  induction l with
  | nil => exact fun acc h => h
  | cons q qs ih =>
    intro acc hacc
    rw [List.foldl_cons]
    apply ih
    intro kv hkv
    rcases mem_mapSet hkv with h | h
    · exact hacc _ h
    · rw [h]
      exact hP q

theorem jsRound_clamp_bounds (r : ℚ) (hr0 : 0 ≤ r) (_hr1 : r < 1) (b : ℚ) (hb : b = 0 ∨ b = 10) :
    50 ≤ jsRound (clampConfidence (60 + r * 30 + b))
      ∧ jsRound (clampConfidence (60 + r * 30 + b)) ≤ 95 := by
  have hr30 : 0 ≤ r * 30 := mul_nonneg hr0 (by norm_num)
  have hx0 : (60 : ℚ) ≤ 60 + r * 30 + b := by
    rcases hb with h | h <;> rw [h] <;> linarith
  have hq60 : (60 : ℚ) ≤ clampConfidence (60 + r * 30 + b) := by
    unfold clampConfidence
    exact le_min (by norm_num) (le_trans hx0 (le_max_right _ _))
  have hq95 : clampConfidence (60 + r * 30 + b) ≤ 95 := min_le_left _ _
  unfold jsRound
  constructor
  · exact Int.le_floor.mpr (by push_cast; linarith)
  · have h96 : (⌊clampConfidence (60 + r * 30 + b) + 1 / 2⌋ : ℤ) < 96 :=
      Int.floor_lt.mpr (by push_cast; linarith)
    omega

/-- C5 (confirmed): modelling each `Math.random()` draw as an arbitrary
rational `r ∈ [0, 1)`, every confidence value stored in the score map built
by `verifyAndRank` is an integer in `[50, 95]`, and equals the rounded value
of the clamped sum of a base draw `60 + r * 30` and a `+10` bonus applied
exactly when some detected architectural style name occurs as a substring
of that hypothesis text. -/
theorem verifyAndRank_confidence_bounds (hyps : List Str) (cues : VisualCues)
    (evidence : Str) (rand : Nat → ℚ) (hr : ∀ i, 0 ≤ rand i ∧ rand i < 1) :
    ∀ kv ∈ (verifyAndRank hyps cues evidence rand).scores,
      (50 ≤ kv.2 ∧ kv.2 ≤ 95)
      ∧ ∃ r, 0 ≤ r ∧ r < 1
          ∧ kv.2 = jsRound (clampConfidence (60 + r * 30
              + (if cues.architecturalStyle.any (fun s => containsSub kv.1 s) then 10 else 0))) := by
  intro kv hkv
  refine foldl_mapSet_forall
    (fun kv => (50 ≤ kv.2 ∧ kv.2 ≤ 95)
      ∧ ∃ r, 0 ≤ r ∧ r < 1
          ∧ kv.2 = jsRound (clampConfidence (60 + r * 30
              + (if cues.architecturalStyle.any (fun s => containsSub kv.1 s) then 10 else 0))))
    (fun p => jsRound (clampConfidence (60 + rand p.1 * 30
      + (if cues.architecturalStyle.any (fun s => containsSub p.2 s) then 10 else 0))))
    ?_ hyps.enum [] (by intro kv h; cases h) kv hkv
  intro p
  obtain ⟨h0, h1⟩ := hr p.1
  refine ⟨jsRound_clamp_bounds (rand p.1) h0 h1 _ ?_, rand p.1, h0, h1, rfl⟩
  split
  · right; rfl
  · left; rfl

/-- C5 witness: with one hypothesis, empty style cues and the constant draw
`r = 0`, the stored entry satisfies the bound and the rounding equation. -/
theorem verifyAndRank_confidence_bounds_witness :
    ((50 ≤ witnessEntry.2 ∧ witnessEntry.2 ≤ 95)
      ∧ ∃ r, 0 ≤ r ∧ r < 1
          ∧ witnessEntry.2 = jsRound (clampConfidence (60 + r * 30
              + (if cuesEmpty.architecturalStyle.any (fun s => containsSub witnessEntry.1 s) then 10 else 0)))) :=
  verifyAndRank_confidence_bounds ["AAAA".data] cuesEmpty [] (fun _ => 0)
    (fun _ => ⟨le_refl 0, by norm_num⟩) witnessEntry (List.Mem.head _)

theorem getD_mod_mem (l : List Str) (n : Nat) (hl : l ≠ []) :
    l.getD (n % l.length) [] ∈ l := by
  have hlt : n % l.length < l.length := Nat.mod_lt _ (List.length_pos.mpr hl)
  rw [List.getD_eq_getElem?_getD, List.getElem?_eq_getElem hlt]
  exact List.getElem_mem hlt

theorem styles_ne_nil : ∀ x ∈ styles, x ≠ [] := by decide

theorem dynasties_ne_nil : ∀ x ∈ dynasties, x ≠ [] := by decide

theorem orD_cons (s : Str) (rest : List Str) (d : Str) (hs : s ≠ []) :
    orD (s :: rest) d = s := by
  unfold orD
  simp [hs]

theorem detectStyle_head (img : Str) :
    ∃ rest, detectArchitecturalStyle img
      = styles.getD (simpleHash (substringJS img 0 1000) % styles.length) [] :: rest := by
  by_cases h : simpleHash (substringJS img 0 1000) % 3 = 0
  · refine ⟨[styles.getD ((simpleHash (substringJS img 0 1000) + 1) % styles.length) []], ?_⟩
    simp only [detectArchitecturalStyle]
    rw [if_pos h]
    rfl
  · refine ⟨[], ?_⟩
    simp only [detectArchitecturalStyle]
    rw [if_neg h]

theorem baseFive_nodup (s p m st d i c : Str) (hs : s ∈ styles) :
    List.Nodup [hyp1 s p, hyp2 s m st, hyp3 d i, hyp4 c p, hyp5 s d] := by
  fin_cases hs <;> exact of_decide_eq_true rfl

theorem genBase_take5_pipeline (img : Str) (t : Option Str) :
    ∃ s p m st d i c, s ∈ styles
      ∧ (genBaseHypotheses (performVisualAnalysis img t).cues).take 5
        = [hyp1 s p, hyp2 s m st, hyp3 d i, hyp4 c p, hyp5 s d] := by
  obtain ⟨rest, hstyle⟩ := detectStyle_head img
  have hsmem : styles.getD (simpleHash (substringJS img 0 1000) % styles.length) [] ∈ styles :=
    getD_mod_mem styles _ (by decide)
  have hsne : styles.getD (simpleHash (substringJS img 0 1000) % styles.length) [] ≠ [] :=
    styles_ne_nil _ hsmem
  have hdmem : dynasties.getD (simpleHash (substringJS img 600 1600) % dynasties.length) []
      ∈ dynasties :=
    getD_mod_mem dynasties _ (by decide)
  have hdne : dynasties.getD (simpleHash (substringJS img 600 1600) % dynasties.length) [] ≠ [] :=
    dynasties_ne_nil _ hdmem
  have hdyn : estimateDynasty img
      = dynasties.getD (simpleHash (substringJS img 600 1600) % dynasties.length) []
        :: [dynasties.getD ((simpleHash (substringJS img 600 1600) + 1) % dynasties.length) []] :=
    rfl
  have e1 : orD (detectArchitecturalStyle img) "traditional".data
      = orD (detectArchitecturalStyle img) "Classical".data := by
    rw [hstyle, orD_cons _ _ _ hsne, orD_cons _ _ _ hsne]
  have e2 : orD (estimateDynasty img) "Medieval".data
      = orD (estimateDynasty img) "Ancient Indian".data := by
    rw [hdyn, orD_cons _ _ _ hdne, orD_cons _ _ _ hdne]
  refine ⟨orD (detectArchitecturalStyle img) "Classical".data,
    estimatePeriod img,
    orD (detectMaterials img) "stone".data,
    orD (detectStructures img) "pillar".data,
    orD (estimateDynasty img) "Ancient Indian".data,
    orD (detectIconography img) "religious".data,
    orD (detectCarvings img) "decorative".data, ?_, ?_⟩
  · rw [hstyle, orD_cons _ _ _ hsne]
    exact hsmem
  · show [hyp1 (orD (detectArchitecturalStyle img) "Classical".data) (estimatePeriod img),
      hyp2 (orD (detectArchitecturalStyle img) "Classical".data)
        (orD (detectMaterials img) "stone".data) (orD (detectStructures img) "pillar".data),
      hyp3 (orD (estimateDynasty img) "Ancient Indian".data)
        (orD (detectIconography img) "religious".data),
      hyp4 (orD (detectCarvings img) "decorative".data) (estimatePeriod img),
      hyp5 (orD (detectArchitecturalStyle img) "traditional".data)
        (orD (estimateDynasty img) "Medieval".data)] = _
    rw [e1, e2]

theorem generateHypotheses_eq (cues : VisualCues) (text : Str) :
    generateHypotheses cues text = (genBaseHypotheses cues).take 5 ++ locationBonuses text := by
  unfold generateHypotheses
  apply List.take_of_length_le
  have h5 : ((genBaseHypotheses cues).take 5).length = 5 := rfl
  have h3 : (locationBonuses text).length ≤ 3 := by
    unfold locationBonuses
    by_cases ht : text = []
    · simp [ht]
    · rw [if_neg ht]
      rcases h1 : containsSub (toLowerStr text) "hampi".data <;>
        rcases h2 : containsSub (toLowerStr text) "kanchipuram".data <;>
        rcases h3 : containsSub (toLowerStr text) "jaipur".data <;>
        simp
  rw [List.length_append, h5]
  omega

theorem mem_keys_verifyAndRank (hyps : List Str) (cues : VisualCues) (e : Str) (rand : Nat → ℚ)
    (x : Str) (hx : x ∈ hyps) :
    x ∈ ((verifyAndRank hyps cues e rand).scores).map Prod.fst := by
  obtain ⟨n, hn⟩ := List.mem_iff_getElem?.mp hx
  have henum : (n, x) ∈ hyps.enum := List.mk_mem_enum_iff_getElem?.mpr hn
  exact mem_keys_foldl _ hyps.enum [] (n, x) henum

theorem scores_length_ge_abstract (hyps : List Str) (cues : VisualCues) (e : Str)
    (rand : Nat → ℚ) (five : List Str) (hnodup : five.Nodup) (hlen5 : five.length = 5)
    (hsub : five ⊆ hyps) :
    5 ≤ ((verifyAndRank hyps cues e rand).scores).length := by
  have hs : five ⊆ ((verifyAndRank hyps cues e rand).scores).map Prod.fst :=
    fun x hx => mem_keys_verifyAndRank hyps cues e rand x (hsub hx)
  have hlen := (List.subperm_of_subset hnodup hs).length_le
  rw [List.length_map, hlen5] at hlen
  exact hlen

theorem scores_length_ge (img t : Str) (rand : Nat → ℚ) (e : Str) :
    5 ≤ ((verifyAndRank (generateHypotheses (performVisualAnalysis img (some t)).cues t)
        (performVisualAnalysis img (some t)).cues e rand).scores).length := by
  obtain ⟨s, p, m, st, d, i, c, hsmem, htake⟩ := genBase_take5_pipeline img (some t)
  refine scores_length_ge_abstract _ _ e rand
    [hyp1 s p, hyp2 s m st, hyp3 d i, hyp4 c p, hyp5 s d]
    (baseFive_nodup s p m st d i c hsmem) rfl ?_
  intro x hx
  rw [generateHypotheses_eq]
  refine List.mem_append.mpr (Or.inl ?_)
  rw [htake]
  exact hx

theorem ranked_length_five (hyps : List Str) (scores : List (Str × Int))
    (h5 : 5 ≤ scores.length) :
    (generateRankedInterpretations hyps scores).length = 5 := by
  unfold generateRankedInterpretations
  rw [List.length_map, List.enum_length, List.length_take, sortScores_length]
  omega

theorem enum_map_sndsnd (l : List (Str × Int)) :
    l.enum.map (fun p => p.2.2) = l.map (fun q => q.2) := by
  have h := List.enum_map_snd l
  calc l.enum.map (fun p => p.2.2)
      = (l.enum.map Prod.snd).map Prod.snd := by rw [List.map_map]; rfl
    _ = l.map Prod.snd := by rw [h]
    _ = l.map (fun q => q.2) := rfl

theorem ranked_confidences (hyps : List Str) (scores : List (Str × Int)) :
    (generateRankedInterpretations hyps scores).map (fun r => r.confidence)
      = ((sortScores scores).take 5).map (fun q => q.2) := by
  unfold generateRankedInterpretations
  rw [List.map_map, ← enum_map_sndsnd]
  rfl

theorem ranked_sorted (hyps : List Str) (scores : List (Str × Int)) :
    ((generateRankedInterpretations hyps scores).map (fun r => r.confidence)).Pairwise (· ≥ ·) := by
  rw [ranked_confidences, List.pairwise_map]
  exact List.Pairwise.sublist (List.take_sublist 5 _) (sortScores_pairwise scores)

theorem ranked_ranks (hyps : List Str) (scores : List (Str × Int)) :
    (generateRankedInterpretations hyps scores).map (fun r => r.rank)
      = (List.range (generateRankedInterpretations hyps scores).length).map (fun n => n + 1) := by
  unfold generateRankedInterpretations
  rw [List.length_map, List.enum_length, List.map_map]
  have h := List.enum_map_fst ((sortScores scores).take 5)
  calc ((sortScores scores).take 5).enum.map
        ((fun r : RankedInterpretation => r.rank) ∘ (fun p =>
          ({ rank := p.1 + 1, hypothesis := p.2.1, confidence := p.2.2,
             summary := generateSummary p.2.1 p.2.2,
             narrative := generateNarrative p.2.1 p.2.2 } : RankedInterpretation)))
      = (((sortScores scores).take 5).enum.map Prod.fst).map (fun n => n + 1) := by
        rw [List.map_map]
        rfl
    _ = (List.range ((sortScores scores).take 5).length).map (fun n => n + 1) := by rw [h]

/-- C4 (confirmed): (1) for every hypothesis list and hypothesis-to-
confidence map, `generateRankedInterpretations` returns at most 5 entries,
sorted by confidence descending (non-increasing), with ranks forming the
contiguous sequence 1, 2, ..., n; (2) for every request that passes the
heritage gate (`is_heritage = true`), the response's ranked
interpretations hold exactly 5 entries with non-increasing confidence —
the five base template hypotheses are pairwise distinct strings, so the
score map holds at least five entries. -/
theorem generateRankedInterpretations_ranking :
    (∀ (hyps : List Str) (scores : List (Str × Int)),
      (generateRankedInterpretations hyps scores).length ≤ 5
      ∧ ((generateRankedInterpretations hyps scores).map (fun r => r.confidence)).Pairwise (· ≥ ·)
      ∧ (generateRankedInterpretations hyps scores).map (fun r => r.rank)
          = (List.range (generateRankedInterpretations hyps scores).length).map (fun n => n + 1))
    ∧ (∀ (img t : Str) (rand : Nat → ℚ),
        (handleAnalyze (some img) (some t) rand).2.is_heritage = true →
        ∃ l, (handleAnalyze (some img) (some t) rand).2.ranked_interpretations = some l
          ∧ l.length = 5
          ∧ (l.map (fun r => r.confidence)).Pairwise (· ≥ ·)) := by
  constructor
  · intro hyps scores
    refine ⟨?_, ranked_sorted hyps scores, ranked_ranks hyps scores⟩
    unfold generateRankedInterpretations
    rw [List.length_map, List.enum_length, List.length_take]
    omega
  · intro img t rand hh
    by_cases himg : img = []
    · subst himg
      exact absurd hh (by exact Bool.false_ne_true)
    · rw [handleAnalyze_some_some img himg t rand] at hh ⊢
      unfold analyzeCore at hh ⊢
      split at hh
      · exact absurd hh (by exact Bool.false_ne_true)
      · rename_i h1
        split at hh
        · exact absurd hh (by exact Bool.false_ne_true)
        · rename_i h2
          rw [if_neg h1, if_neg h2]
          refine ⟨_, rfl, ?_, ranked_sorted _ _⟩
          exact ranked_length_five _ _ (scores_length_ge img t rand _)

set_option maxRecDepth 100000 in
/-- C4 witness: a concrete request that passes the gate produces exactly
five ranked interpretations with non-increasing confidence. -/
theorem generateRankedInterpretations_ranking_witness :
    ∃ l, (handleAnalyze (some "data:image/png;base64,AAAA".data) (some [])
        (fun _ => 0)).2.ranked_interpretations = some l
      ∧ l.length = 5
      ∧ (l.map (fun r => r.confidence)).Pairwise (· ≥ ·) :=
  generateRankedInterpretations_ranking.2 "data:image/png;base64,AAAA".data [] (fun _ => 0)
    (by decide)

theorem classify_reason_isSome (cues : VisualCues) (t : Str)
    (h : (classifyHeritageContent cues t).is_heritage = false) :
    (classifyHeritageContent cues t).reason.isSome := by
  unfold classifyHeritageContent at h ⊢
  cases hfind : nonHeritageKeywords.find? (fun kw => containsSub (toLowerStr t) kw) with
  | some kw => rfl
  | none =>
    rw [hfind] at h
    have h2 : (if cues.architecturalStyle.length = 0 ∨ cues.structures.length = 0 then
        ({ is_heritage := false, reason := some noElementsMsg } : HeritageCheck)
      else { is_heritage := true, reason := none }).is_heritage = false := h
    show (if cues.architecturalStyle.length = 0 ∨ cues.structures.length = 0 then
        ({ is_heritage := false, reason := some noElementsMsg } : HeritageCheck)
      else { is_heritage := true, reason := none }).reason.isSome = true
    split
    · rfl
    · rename_i hcond
      rw [if_neg hcond] at h2
      simp at h2

theorem summary_ne_nil (img : Str) (t : Option Str) :
    (performVisualAnalysis img t).summary ≠ [] := by
  intro h
  have h1 : (performVisualAnalysis img t).summary.take 1 = ['V'] := rfl
  rw [h] at h1
  exact absurd h1 (by decide)

theorem retrieveEvidence_ne_nil (hyps : List Str) (t : Str) :
    retrieveEvidence hyps t ≠ [] := by
  intro h
  have h1 : (retrieveEvidence hyps t).take 1 = ['C'] := rfl
  rw [h] at h1
  exact absurd h1 (by decide)

theorem analyzeArchitectural_ne_nil (cues : VisualCues) (hyps : List Str) (e : Str) :
    analyzeArchitectural cues hyps e ≠ [] := by
  intro h
  have h1 : (analyzeArchitectural cues hyps e).take 1 = ['T'] := rfl
  rw [h] at h1
  exact absurd h1 (by decide)

theorem analyzeCultural_ne_nil (cues : VisualCues) (hyps : List Str) (e : Str) :
    analyzeCultural cues hyps e ≠ [] := by
  intro h
  have h1 : (analyzeCultural cues hyps e).take 1 = ['M'] := rfl
  rw [h] at h1
  exact absurd h1 (by decide)

theorem verificationSummary_ne_nil : verificationSummary ≠ [] := by decide

theorem generateHypotheses_ne_nil (cues : VisualCues) (t : Str) :
    generateHypotheses cues t ≠ [] := by
  intro h
  have h5 : 5 ≤ (generateHypotheses cues t).length := by
    rw [generateHypotheses_eq, List.length_append]
    have he : ((genBaseHypotheses cues).take 5).length = 5 := rfl
    omega
  rw [h] at h5
  simp at h5

/-- C3 (confirmed): on every exit path of the request handler — missing or
empty image, failed image validation, the internal-failure catch-all (the
one reachable failure: absent `text` makes `classifyHeritageContent` throw),
the non-heritage rejection and the success path — the response satisfies
the shape invariant: `is_valid = false` implies `is_heritage = false` with
no analysis fields; `is_valid = true ∧ is_heritage = false` implies a
populated error and no analysis fields; and only when both flags are true
are all five analysis fields present and non-empty (with no error). -/
theorem handleAnalyze_shape_invariant (image text : Option Str) (rand : Nat → ℚ) :
    resultInvariant (handleAnalyze image text rand).2 := by
  rcases image with _ | img
  · show resultInvariant noImageResult
    simp [resultInvariant, noImageResult, analysisFieldsAbsent]
  · by_cases himg : img = []
    · subst himg
      show resultInvariant noImageResult
      simp [resultInvariant, noImageResult, analysisFieldsAbsent]
    · rcases text with _ | t
      · rw [handleAnalyze_some_none img himg rand]
        split
        · simp [resultInvariant, invalidImageResult, analysisFieldsAbsent]
        · simp [resultInvariant, analysisFailedResult, analysisFieldsAbsent]
      · rw [handleAnalyze_some_some img himg t rand]
        unfold analyzeCore
        split
        · simp [resultInvariant, invalidImageResult, analysisFieldsAbsent]
        · split
          · rename_i hcls
            refine ⟨by simp [notHeritageResult], ?_, by simp [notHeritageResult]⟩
            intro _ _
            exact ⟨classify_reason_isSome _ _ hcls, rfl, rfl, rfl, rfl, rfl⟩
          · refine ⟨by simp [successResult], by simp [successResult], ?_⟩
            intro _ _
            refine ⟨rfl, ?_, ?_, ?_, ?_, ?_⟩
            · refine ⟨_, rfl, ?_⟩
              exact summary_ne_nil img (some t)
            · refine ⟨_, rfl, ?_⟩
              exact generateHypotheses_ne_nil _ t
            · refine ⟨_, rfl, ?_⟩
              exact retrieveEvidence_ne_nil _ t
            · refine ⟨_, rfl, ?_, ?_, ?_⟩
              · exact analyzeArchitectural_ne_nil (performVisualAnalysis img (some t)).cues
                  (generateHypotheses (performVisualAnalysis img (some t)).cues t)
                  (retrieveEvidence (generateHypotheses (performVisualAnalysis img (some t)).cues t) t)
              · exact analyzeCultural_ne_nil (performVisualAnalysis img (some t)).cues
                  (generateHypotheses (performVisualAnalysis img (some t)).cues t)
                  (retrieveEvidence (generateHypotheses (performVisualAnalysis img (some t)).cues t) t)
              · exact verificationSummary_ne_nil
            · refine ⟨_, rfl, ?_⟩
              intro h
              have hr5 := ranked_length_five
                (generateHypotheses (performVisualAnalysis img (some t)).cues t)
                ((verifyAndRank (generateHypotheses (performVisualAnalysis img (some t)).cues t)
                  (performVisualAnalysis img (some t)).cues
                  (retrieveEvidence (generateHypotheses (performVisualAnalysis img (some t)).cues t) t)
                  rand).scores)
                (scores_length_ge img t rand _)
              rw [h] at hr5
              simp at hr5

/-- C1 witness: the contract instantiated at a concrete non-data-URL input. -/
theorem validateImage_whole_string_contract_witness :
    validateImage "x".data = ⟨false, some invalidFormatMsg⟩ ↔ ¬ "data:image/".data <+: "x".data :=
  (validateImage_whole_string_contract "x".data).1

/-- C2 witness: the signed-wraparound characterisation at a concrete input. -/
theorem simpleHash_signed_wraparound_abs_witness :
    simpleHash "ab".data = if simpleHashClaimedMod "ab".data < 2147483648
      then simpleHashClaimedMod "ab".data else 4294967296 - simpleHashClaimedMod "ab".data :=
  simpleHash_signed_wraparound_abs "ab".data

/-- C3 witness: the shape invariant at a concrete request. -/
theorem handleAnalyze_shape_invariant_witness :
    resultInvariant (handleAnalyze none none (fun _ => 0)).2 :=
  handleAnalyze_shape_invariant none none (fun _ => 0)

/-- C10 witness: the missing-image contract at a concrete request. -/
theorem handleAnalyze_no_image_witness :
    handleAnalyze none none (fun _ => 0) = (400, noImageResult)
    ∧ handleAnalyze (some []) none (fun _ => 0) = (400, noImageResult)
    ∧ noImageResult.is_valid = false
    ∧ noImageResult.is_heritage = false
    ∧ noImageResult.error = some "No image provided".data
    ∧ analysisFieldsAbsent noImageResult
    ∧ noImageResult.error ≠ some invalidFormatMsg
    ∧ noImageResult.error ≠ some tooLargeMsg
    ∧ validateImage [] = ⟨false, some invalidFormatMsg⟩ :=
  handleAnalyze_no_image none (fun _ => 0)
